import Mathlib

/-!
Verification development for the scratch-print-text repository.

The repository holds two near-identical Python scripts that render one
glyph image per (font, character) pair and package the results, together
with an existing behaviour definition, into a Scratch `.sprite3` zip
archive:

  * `archived/raster_costumes/create_raster_costumes.py` (PNG via an
    external ImageMagick `convert` call), and
  * `src/create_vector_costumes.py` (SVG via pure string templating).

This file is a shallow embedding of those scripts.  Pure functions
(`name_for`, `svg_letter`, the label-escaping table, the costume
dictionaries) are translated directly.  External collaborators are made
explicit parameters:

  * the external renderer and the MD5 hexdigest (`hashlib.md5`) become
    fields of a `RenderEnv`, since the scripts treat them as black-box
    byte producers;
  * the fragment of Python's `unicodedata.name` table that the scripts
    can reach (the configured character set plus U+FFFD) is embedded as
    a finite lookup, returning `none` where CPython raises `ValueError`
    (in particular for unassigned code points such as U+0000);
  * `zipfile` behaviour is modelled by the state of the output path:
    `ZipFile(path, 'w')` creates the file immediately, and closing the
    archive (also on the exception path of the `with` block) leaves the
    entries written so far at that path;
  * `json` values are modelled by `JValue` (integer numerals suffice for
    every field the scripts touch), `json.load` hands the parsed
    `sprite.json` object to `load_sprite_code`, and `json.dumps` is
    embedded as `dumps` with CPython's default separators and
    `ensure_ascii` escaping (basic-plane code points).

Python dictionaries are insertion-ordered association lists; `dictSet`
mirrors `d[k] = v` (update in place if the key exists, append
otherwise), and `jGet` mirrors key lookup.
-/

/-- JSON values as produced by `json.load` on `sprite.json`.  Objects are
insertion-ordered association lists, matching CPython dictionaries.
Numbers are restricted to integers, which covers every field the
scripts read or write. -/
inductive JValue where
  | null
  | bool (b : Bool)
  | num (n : Int)
  | str (s : String)
  | arr (xs : List JValue)
  | obj (kvs : List (String × JValue))

/-- A parsed JSON object: the representation of a Python `dict` loaded
from JSON. -/
abbrev JObj := List (String × JValue)

/-- Key lookup in a Python dictionary (`d[k]`), returning `none` where
CPython raises `KeyError`. -/
def jGet : JObj → String → Option JValue
  | [], _ => none
  | (k', v) :: rest, k => if k' = k then some v else jGet rest k

/-- Key lookup through a `JValue` that is expected to be an object. -/
def jGetV (v : JValue) (k : String) : Option JValue :=
  match v with
  | .obj kvs => jGet kvs k
  | _ => none

/-- Assignment `d[k] = v` on a Python dictionary: replaces the value of
the first matching key in place, or appends a new key at the end. -/
def dictSet : JObj → String → JValue → JObj
  | [], k, v => [(k, v)]
  | (k', v') :: rest, k, v =>
    if k' = k then (k', v) :: rest else (k', v') :: dictSet rest k v

/-- The sub-dictionary obtained by dropping the given keys; used to talk
about the opaque behaviour payload of a manifest. -/
def payloadExcept (keys : List String) (o : JObj) : JObj :=
  o.filter (fun kv => !(keys.contains kv.1))

/-- One hexadecimal digit, lowercase, as printed by CPython. -/
def hexDigit (n : Nat) : Char :=
  if n < 10 then Char.ofNat (48 + n) else Char.ofNat (87 + n)

/-- Four-digit lowercase hexadecimal rendering of a code point, as used
by `json.dumps` for `\uXXXX` escapes. -/
def hex4 (n : Nat) : String :=
  ⟨[hexDigit (n / 4096 % 16), hexDigit (n / 256 % 16),
    hexDigit (n / 16 % 16), hexDigit (n % 16)]⟩

/-- Per-character escaping of `json.dumps` with its defaults
(`ensure_ascii=True`); basic-plane code points only, which covers every
string the scripts serialize. -/
def jsonEscapeChar (c : Char) : String :=
  if c = Char.ofNat 34 then "\\\"" else
  if c = '\\' then "\\\\" else
  if c = Char.ofNat 10 then "\\n" else
  if c = Char.ofNat 13 then "\\r" else
  if c = Char.ofNat 9 then "\\t" else
  if c = Char.ofNat 8 then "\\b" else
  if c = Char.ofNat 12 then "\\f" else
  if c.toNat < 32 ∨ 126 < c.toNat then "\\u" ++ hex4 c.toNat
  else c.toString

/-- A JSON string literal as printed by `json.dumps`. -/
def dumpStr (s : String) : String :=
  "\"" ++ String.join (s.data.map jsonEscapeChar) ++ "\""

mutual

/-- `json.dumps` with CPython's default separators `", "` and `": "`,
serializing object keys in dictionary (insertion) order. -/
def dumps : JValue → String
  | .null => "null"
  | .bool true => "true"
  | .bool false => "false"
  | .num n => toString n
  | .str s => dumpStr s
  | .arr xs => "[" ++ dumpsArr xs ++ "]"
  | .obj kvs => "\x7b" ++ dumpsObj kvs ++ "\x7d"

/-- Comma-separated serialization of a JSON array body. -/
def dumpsArr : List JValue → String
  | [] => ""
  | [x] => dumps x
  | x :: y :: rest => dumps x ++ ", " ++ dumpsArr (y :: rest)

/-- Comma-separated serialization of a JSON object body. -/
def dumpsObj : List (String × JValue) → String
  | [] => ""
  | [(k, v)] => dumpStr k ++ ": " ++ dumps v
  | (k, v) :: p :: rest => dumpStr k ++ ": " ++ dumps v ++ ", " ++ dumpsObj (p :: rest)

end

/-- Python exceptions raised by the pure fragments we embed. -/
inductive PyErr where
  | valueError
deriving DecidableEq

/-- Result of a Python computation that may raise. -/
inductive PyResult (α : Type) where
  | ok (a : α)
  | error (e : PyErr)
deriving DecidableEq

/-- ASCII lowering of one character; `str.lower` restricted to the ASCII
range, which is exact for every string the scripts lower (font
identifiers and Unicode character names). -/
def lowerChar (c : Char) : Char :=
  if 'A' ≤ c ∧ c ≤ 'Z' then Char.ofNat (c.toNat + 32) else c

/-- Python `str.lower` on the strings arising in the scripts. -/
def pyLower (s : String) : String := ⟨s.data.map lowerChar⟩

/-- Python `str.replace(old, new)` for a single-character pattern. -/
def strReplaceChar (s : String) (old new : Char) : String :=
  ⟨s.data.map (fun c => if c = old then new else c)⟩

/-- The membership string of `name_for`'s first rule. -/
def lowerdigits : String := "abcdefghijklmnopqrstuvwxyz0123456789"

/-- The membership string of `name_for`'s second rule. -/
def uppercaseLetters : String := "ABCDEFGHIJKLMNOPQRSTUVWXYZ"

/-- Modelled from the environment: the fragment of Python's
`unicodedata.name` lookup reachable from the scripts, namely the
punctuation and symbol characters of the configured character set plus
U+FFFD.  `none` stands for CPython's `ValueError`, raised in particular
for unassigned code points such as U+0000. -/
def unicodedataName (c : Char) : Option String :=
  match c.toNat with
  | 0x20 => some "SPACE"
  | 0x21 => some "EXCLAMATION MARK"
  | 0x22 => some "QUOTATION MARK"
  | 0x23 => some "NUMBER SIGN"
  | 0x24 => some "DOLLAR SIGN"
  | 0x25 => some "PERCENT SIGN"
  | 0x26 => some "AMPERSAND"
  | 0x27 => some "APOSTROPHE"
  | 0x28 => some "LEFT PARENTHESIS"
  | 0x29 => some "RIGHT PARENTHESIS"
  | 0x2A => some "ASTERISK"
  | 0x2B => some "PLUS SIGN"
  | 0x2C => some "COMMA"
  | 0x2D => some "HYPHEN-MINUS"
  | 0x2E => some "FULL STOP"
  | 0x2F => some "SOLIDUS"
  | 0x3A => some "COLON"
  | 0x3B => some "SEMICOLON"
  | 0x3C => some "LESS-THAN SIGN"
  | 0x3D => some "EQUALS SIGN"
  | 0x3E => some "GREATER-THAN SIGN"
  | 0x3F => some "QUESTION MARK"
  | 0x40 => some "COMMERCIAL AT"
  | 0x5B => some "LEFT SQUARE BRACKET"
  | 0x5C => some "REVERSE SOLIDUS"
  | 0x5D => some "RIGHT SQUARE BRACKET"
  | 0x5E => some "CIRCUMFLEX ACCENT"
  | 0x5F => some "LOW LINE"
  | 0x60 => some "GRAVE ACCENT"
  | 0x7B => some "LEFT CURLY BRACKET"
  | 0x7C => some "VERTICAL LINE"
  | 0x7D => some "RIGHT CURLY BRACKET"
  | 0x7E => some "TILDE"
  | 0xA3 => some "POUND SIGN"
  | 0x20AC => some "EURO SIGN"
  | 0xFFFD => some "REPLACEMENT CHARACTER"
  | _ => none

/-- `name_for(font_id, character)`: the costume-name deriver, identical
in both scripts.  Python's `character in '...'` membership test on a
one-character string is embedded as character membership. -/
def name_for (font_id : String) (character : Char) : PyResult String :=
  if character ∈ lowerdigits.data then
    .ok (pyLower (font_id ++ "-" ++ character.toString))
  else if character ∈ uppercaseLetters.data then
    .ok (font_id ++ "-upper-" ++ character.toString)
  else
    match unicodedataName character with
    | some n =>
      .ok (pyLower (font_id ++ "-special-" ++
        strReplaceChar (strReplaceChar (pyLower n) '_' '-') ' ' '-'))
    | none => .error .valueError

/-- The value of `name_for font_id c` on the success path, for stating
the shape of the glyph stream. -/
def nameOf (font_id : String) (c : Char) : String :=
  match name_for font_id c with
  | .ok n => n
  | .error _ => ""

/-- The configured character set, identical in both scripts. -/
def characters : String :=
  "abcdefghijklmnopqrstuvwxyz" ++
  "ABCDEFGHIJKLMNOPQRSTUVWXYZ" ++
  "0123456789" ++
  "`~!@#$€£%^&*()-_=+[\x7b]\x7d\\|;:" ++ (Char.ofNat 39).toString ++ "\"<,>.?/ "

/-- The costume dictionary returned by `generate_glyph`.
`bitmapResolution` is `some 2` in the raster script and absent (`none`)
in the vector script. -/
structure Costume where
  assetId : String
  name : String
  bitmapResolution : Option Nat
  md5ext : String
  dataFormat : String
  rotationCenterX : Nat
  rotationCenterY : Nat
deriving DecidableEq

/-- The costume dictionary as a JSON object, with keys in the insertion
order used by `generate_glyph` (the `bitmapResolution` key is simply
absent in the vector script). -/
def costumeToJValue (c : Costume) : JValue :=
  .obj ([("assetId", .str c.assetId), ("name", .str c.name)] ++
    (match c.bitmapResolution with
     | some r => [("bitmapResolution", JValue.num r)]
     | none => []) ++
    [("md5ext", .str c.md5ext), ("dataFormat", .str c.dataFormat),
     ("rotationCenterX", .num c.rotationCenterX),
     ("rotationCenterY", .num c.rotationCenterY)])

/-- Content of one entry of the output zip archive: a staged binary blob
copied by `archive.write`, or the text written by `archive.writestr`. -/
inductive EntryData where
  | bin (b : List Nat)
  | txt (s : String)
deriving DecidableEq

/-- One member of the output zip archive.  Both the blob copies
(explicitly `ZIP_STORED`) and the manifest (the archive default, also
stored) are uncompressed, so the content is kept verbatim. -/
structure ZipEntry where
  arcname : String
  data : EntryData
deriving DecidableEq

/-- Errors that can abort `assemble_sprite`: the `FileNotFoundError`
raised by `archive.write` when a descriptor's digest has no staged file
(the `MissingAsset` role of the design), and the `KeyError`/`TypeError`
of malformed manifests. -/
inductive AssembleError where
  | missingAsset (arcname : String)
  | keyError (key : String)
  | typeError
deriving DecidableEq

/-- State of the output path after `assemble_sprite` returns or raises.
`ZipFile(path, 'w')` creates the file immediately, and the `with` block
closes the archive even when an exception propagates, so `outputFile`
records the entries present in the file at the output path (`none`
would mean no file exists there; the function never produces it). -/
structure AssembleResult where
  outputFile : Option (List ZipEntry)
  error : Option AssembleError
deriving DecidableEq

/-- The descriptor loop of `assemble_sprite`: `written` is the
`written_files` set (insertion list), `acc` the entries already in the
archive.  A duplicate `md5ext` skips the binary copy; a missing staged
file aborts with the entries written so far. -/
def assembleLoop (staging : String → Option (List Nat)) :
    List JValue → List String → List ZipEntry → List ZipEntry × Option AssembleError
  | [], _, acc => (acc, none)
  | c :: cs, written, acc =>
    match c with
    | .obj kvs =>
      match jGet kvs "md5ext" with
      | some (.str m) =>
        if m ∈ written then
          assembleLoop staging cs written acc
        else
          match staging m with
          | some b => assembleLoop staging cs (m :: written) (acc ++ [⟨m, .bin b⟩])
          | none => (acc, some (.missingAsset m))
      | some _ => (acc, some .typeError)
      | none => (acc, some (.keyError "md5ext"))
    | _ => (acc, some .typeError)

/-- `assemble_sprite(sprite, filename)`, identical in both scripts: open
the output archive (creating the file), copy each costume's staged blob
once per distinct `md5ext`, then serialize the manifest as
`sprite.json`.  `staging` maps a staged file name to its bytes. -/
def assemble_sprite (sprite : JObj) (staging : String → Option (List Nat)) :
    AssembleResult :=
  match jGet sprite "costumes" with
  | some (.arr cs) =>
    match assembleLoop staging cs [] [] with
    | (entries, none) =>
      ⟨some (entries ++ [⟨"sprite.json", .txt (dumps (.obj sprite))⟩]), none⟩
    | (entries, some e) => ⟨some entries, some e⟩
  | some _ => ⟨some [], some .typeError⟩
  | none => ⟨some [], some (.keyError "costumes")⟩

/-- `load_sprite_code`, identical in both scripts, acting on the parsed
`sprite.json` object (zip extraction and JSON parsing by `zipfile` and
`json` are treated as handing over the embedded manifest value):
clear `costumes`, reset `current_costume` to 0, clear `sounds`. -/
def load_sprite_code (sprite : JObj) : JObj :=
  dictSet (dictSet (dictSet sprite "costumes" (.arr [])) "current_costume" (.num 0))
    "sounds" (.arr [])

/-- Reference form of the dedup performed by the `written_files` set:
the first occurrence of each key not yet written, in encounter order. -/
def newEntriesKeys : List String → List String → List String
  | [], _ => []
  | m :: ms, written =>
    if m ∈ written then newEntriesKeys ms written
    else m :: newEntriesKeys ms (m :: written)

/-- 32-character lowercase hexadecimal test, the shape of
`hashlib.md5(...).hexdigest()`. -/
def isHex32 (s : String) : Bool :=
  s.data.length == 32 &&
    s.data.all (fun c => ('0' ≤ c && c ≤ '9') || ('a' ≤ c && c ≤ 'f'))

namespace Raster

/-- A font of `create_raster_costumes.py`: identifier plus TTF path. -/
structure RFont where
  id : String
  filename : String
deriving DecidableEq

/-- The configured raster font list. -/
def fonts : List RFont :=
  [⟨"sans", "/usr/share/fonts/truetype/dejavu/DejaVuSans.ttf"⟩,
   ⟨"mono", "/usr/share/fonts/truetype/ttf-bitstream-vera/VeraMono.ttf"⟩,
   ⟨"decor", "/usr/share/fonts/truetype/aenigma/hillock.ttf"⟩,
   ⟨"scrawl", "/usr/share/fonts/truetype/aenigma/aescrawl.ttf"⟩]

/-- Canvas width `60 * 4`. -/
def width : Nat := 60 * 4

/-- Canvas height `80 * 4`. -/
def height : Nat := 80 * 4

/-- The fixed known-good font used for every fallback glyph. -/
def replacement_font : String := "/usr/share/fonts/truetype/dejavu/DejaVuSans.ttf"

/-- `'�'`, the Unicode replacement character. -/
def replacement_character : Char := Char.ofNat 0xFFFD

/-- The `label_specials` dictionary: ImageMagick label directives for
the two characters needing escaping (`'label:\ '` for space and
`'label:\\'` for backslash). -/
def label_specials (c : Char) : Option String :=
  if c = ' ' then some "label:\\ " else
  if c = '\\' then some "label:\\\\" else none

/-- `label_specials.get(character, f'label:{character}')`: the label
passed to the renderer for a character. -/
def labelFor (c : Char) : String :=
  (label_specials c).getD ("label:" ++ c.toString)

/-- The external collaborators of the raster script as a black-box
environment: the ImageMagick `convert` invocation (font and label to
PNG bytes) and the MD5 hexdigest. -/
structure RenderEnv where
  render : String → String → List Nat
  md5 : List Nat → String

/-- Observable outcome of one `generate_glyph` call: the returned
costume dictionary, the staged file written under `staging/{digest}.png`,
and the `(font, label)` arguments of the renderer invocation. -/
structure GlyphOut where
  costume : Costume
  stagedName : String
  stagedData : List Nat
  callFont : String
  callSpec : String
deriving DecidableEq

/-- `generate_glyph(font, name, label)` of the raster script: render,
hash, stage under `{md5hash}.png`, and build the costume dictionary. -/
def generate_glyph (env : RenderEnv) (font name label : String) : GlyphOut :=
  let bytes := env.render font label
  let md5hash := env.md5 bytes
  { costume :=
      { assetId := md5hash, name := name, bitmapResolution := some 2,
        md5ext := md5hash ++ ".png", dataFormat := "png",
        rotationCenterX := width / 2, rotationCenterY := height / 2 },
    stagedName := md5hash ++ ".png", stagedData := bytes,
    callFont := font, callSpec := label }

/-- The fallback glyph yielded first for each font: the replacement
character rendered with the fixed `replacement_font`. -/
def fallbackGlyph (env : RenderEnv) (font : RFont) : GlyphOut :=
  generate_glyph env replacement_font (font.id ++ "-replaceable")
    ("label:" ++ replacement_character.toString)

/-- The inner loop of `generate_glyphs`: one glyph per character of the
configured set, in order; a `ValueError` from `name_for` aborts the
generator. -/
def charGlyphs (env : RenderEnv) (font : RFont) : List Char → PyResult (List GlyphOut)
  | [] => .ok []
  | c :: cs =>
    match name_for font.id c with
    | .error e => .error e
    | .ok n =>
      match charGlyphs env font cs with
      | .error e => .error e
      | .ok rest => .ok (generate_glyph env font.filename n (labelFor c) :: rest)

/-- `generate_glyphs()` of the raster script, parameterized by the
configured font list and character set it reads from globals: for each
font, the fallback glyph first, then the per-character glyphs. -/
def generate_glyphs (env : RenderEnv) : List RFont → List Char → PyResult (List GlyphOut)
  | [], _ => .ok []
  | f :: fs, chars =>
    match charGlyphs env f chars with
    | .error e => .error e
    | .ok block =>
      match generate_glyphs env fs chars with
      | .error e => .error e
      | .ok rest => .ok (fallbackGlyph env f :: (block ++ rest))

/-- The per-font segment of the glyph stream, for stating its shape. -/
def fontBlock (env : RenderEnv) (chars : List Char) (f : RFont) : List GlyphOut :=
  fallbackGlyph env f ::
    chars.map (fun c => generate_glyph env f.filename (nameOf f.id c) (labelFor c))

end Raster

namespace Vector

/-- A font of `create_vector_costumes.py`: identifier plus Scratch font
family name. -/
structure VFont where
  id : String
  fontname : String
deriving DecidableEq

/-- The configured vector font list. -/
def fonts : List VFont :=
  [⟨"handwriting", "Handwriting"⟩, ⟨"sans-serif", "Sans Serif"⟩,
   ⟨"serif", "Serif"⟩, ⟨"curly", "Curly"⟩, ⟨"marker", "Marker"⟩,
   ⟨"pixel", "Pixel"⟩]

/-- Canvas width. -/
def width : Nat := 40

/-- Canvas height. -/
def height : Nat := 50

/-- The `replacements` dictionary of `svg_letter`: XML entity
substitution for the three XML-significant characters, keyed on the
whole (one-character) string as in the Python `in`/lookup on a dict. -/
def svgReplacements (character : String) : Option String :=
  if character = "&" then some "&amp;" else
  if character = "<" then some "&lt;" else
  if character = ">" then some "&gt;" else none

/-- The SVG template up to the font-family value.  `{width}`/`{height}`
interpolate the canvas constants; `{width/2}` and `{height*0.75}` are
Python float divisions rendered as `20.0` and `37.5`. -/
def svgPart1 : String :=
  "\n        <svg version=\"1.1\"\n            xmlns=\"http://www.w3.org/2000/svg\"\n            xmlns:xlink=\"http://www.w3.org/1999/xlink\" width=\"" ++
  toString width ++ "\" height=\"" ++ toString height ++ "\" viewBox=\"0,0," ++
  toString width ++ "," ++ toString height ++
  "\">\n            <text x=\"20.0\" y=\"37.5\" font-size=\"40\" xml:space=\"preserve\" fill=\"#000000\" fill-rule=\"nonzero\"\n                stroke=\"none\" stroke-width=\"1\" stroke-linecap=\"butt\" stroke-linejoin=\"miter\" stroke-miterlimit=\"10\" stroke-dasharray=\"\" stroke-dashoffset=\"0\"\n                font-family=\""

/-- The SVG template between the font-family value and the text node
content. -/
def svgPart2 : String :=
  "\" font-weight=\"normal\" text-anchor=\"middle\" style=\"mix-blend-mode: normal\">"

/-- The SVG template after the text node content. -/
def svgPart3 : String := "</text>\n        </svg>\n        "

/-- `svg_letter(character, font)`: the f-string template with the
escaped character embedded in the text node. -/
def svg_letter (character font : String) : String :=
  svgPart1 ++ font ++ svgPart2 ++ (svgReplacements character).getD character ++ svgPart3

/-- The external collaborator of the vector script: the MD5 hexdigest
of the staged SVG document (the UTF-8 file written then hashed). -/
structure RenderEnv where
  md5 : String → String

/-- Observable outcome of one vector `generate_glyph` call: the costume
dictionary, the staged `{digest}.svg` file, and the `(font, character)`
pair fed to the SVG templating. -/
structure GlyphOut where
  costume : Costume
  stagedName : String
  stagedData : String
  callFont : String
  callSpec : String
deriving DecidableEq

/-- `generate_glyph(font, name, character)` of the vector script: build
the SVG document, hash it, stage it under `{md5hash}.svg`, and build
the costume dictionary (no `bitmapResolution` key). -/
def generate_glyph (env : RenderEnv) (font name character : String) : GlyphOut :=
  let content := svg_letter character font
  let md5hash := env.md5 content
  { costume :=
      { assetId := md5hash, name := name, bitmapResolution := none,
        md5ext := md5hash ++ ".svg", dataFormat := "svg",
        rotationCenterX := width / 2, rotationCenterY := height / 2 },
    stagedName := md5hash ++ ".svg", stagedData := content,
    callFont := font, callSpec := character }

/-- The fallback glyph yielded first for each font: `'�'` rendered
via the target font's own family name. -/
def fallbackGlyph (env : RenderEnv) (font : VFont) : GlyphOut :=
  generate_glyph env font.fontname (font.id ++ "-replaceable")
    (Char.ofNat 0xFFFD).toString

/-- The inner loop of the vector `generate_glyphs`. -/
def charGlyphs (env : RenderEnv) (font : VFont) : List Char → PyResult (List GlyphOut)
  | [] => .ok []
  | c :: cs =>
    match name_for font.id c with
    | .error e => .error e
    | .ok n =>
      match charGlyphs env font cs with
      | .error e => .error e
      | .ok rest => .ok (generate_glyph env font.fontname n c.toString :: rest)

/-- `generate_glyphs()` of the vector script, parameterized by the
configured font list and character set. -/
def generate_glyphs (env : RenderEnv) : List VFont → List Char → PyResult (List GlyphOut)
  | [], _ => .ok []
  | f :: fs, chars =>
    match charGlyphs env f chars with
    | .error e => .error e
    | .ok block =>
      match generate_glyphs env fs chars with
      | .error e => .error e
      | .ok rest => .ok (fallbackGlyph env f :: (block ++ rest))

/-- The per-font segment of the vector glyph stream. -/
def fontBlock (env : RenderEnv) (chars : List Char) (f : VFont) : List GlyphOut :=
  fallbackGlyph env f ::
    chars.map (fun c => generate_glyph env f.fontname (nameOf f.id c) c.toString)

end Vector

/-! ### Concrete fixtures used by witnesses and counterexamples -/

/-- A fixed 32-character lowercase hex digest used as a stand-in
hexdigest value in concrete runs. -/
def wHex : String := "0123456789abcdef0123456789abcdef"

/-- A concrete raster environment: a renderer producing one constant
byte and a constant hexdigest. -/
def wREnv : Raster.RenderEnv := ⟨fun _ _ => [0], fun _ => wHex⟩

/-- A concrete vector environment with a constant hexdigest. -/
def wVEnv : Vector.RenderEnv := ⟨fun _ => wHex⟩

/-- The first configured raster font. -/
def wRFont : Raster.RFont := ⟨"sans", "/usr/share/fonts/truetype/dejavu/DejaVuSans.ttf"⟩

/-- The first configured vector font. -/
def wVFont : Vector.VFont := ⟨"handwriting", "Handwriting"⟩

/-- The raster glyph stream of `wREnv` over one font and one character. -/
def wRList : List Raster.GlyphOut := [wRFont].flatMap (Raster.fontBlock wREnv ['a'])

/-- The vector glyph stream of `wVEnv` over one font and one character. -/
def wVList : List Vector.GlyphOut := [wVFont].flatMap (Vector.fontBlock wVEnv ['a'])

/-- The raster glyph stream of `wREnv` over one font and no characters. -/
def wRList0 : List Raster.GlyphOut := [Raster.fallbackGlyph wREnv wRFont]

/-- The vector glyph stream of `wVEnv` over one font and no characters. -/
def wVList0 : List Vector.GlyphOut := [Vector.fallbackGlyph wVEnv wVFont]

/-- The raster glyph stream of `wREnv` over the configured font list
and the full configured character set. -/
def wRListFull : List Raster.GlyphOut :=
  Raster.fonts.flatMap (Raster.fontBlock wREnv characters.data)

/-- The vector glyph stream of `wVEnv` over the configured font list
and the full configured character set. -/
def wVListFull : List Vector.GlyphOut :=
  Vector.fonts.flatMap (Vector.fontBlock wVEnv characters.data)

set_option maxRecDepth 8192

/-- A concrete costume descriptor. -/
def wCostumeA : Costume := ⟨wHex, "sans-space", some 2, wHex ++ ".png", "png", 120, 160⟩

/-- A second descriptor sharing `wCostumeA`'s digest (the space glyph of
another font rendering to byte-identical output). -/
def wCostumeB : Costume := ⟨wHex, "mono-space", some 2, wHex ++ ".png", "png", 120, 160⟩

/-- A concrete manifest holding the two duplicate-digest descriptors. -/
def wSprite : JObj :=
  [("name", .str "Printer"),
   ("costumes", .arr ([wCostumeA, wCostumeB].map costumeToJValue))]

/-- A staging directory holding exactly the shared blob. -/
def wStaging : String → Option (List Nat) :=
  fun s => if s = wHex ++ ".png" then some [1, 2, 3] else none

/-- An empty staging directory. -/
def wStagingEmpty : String → Option (List Nat) := fun _ => none

/-- A manifest referencing a digest that is never staged. -/
def c3Sprite : JObj := [("costumes", .arr [costumeToJValue wCostumeA])]

/-- A well-formed input manifest whose `current_costume` is 1. -/
def c4Sprite : JObj :=
  [("name", .str "Printer"),
   ("costumes", .arr [costumeToJValue wCostumeA]),
   ("sounds", .arr []),
   ("current_costume", .num 1),
   ("blocks", .obj [])]

/-! ### Helper lemmas -/

theorem pyLower_append (a b : String) : pyLower (a ++ b) = pyLower a ++ pyLower b := by
  cases a; cases b
  show String.mk _ = String.mk _
  simp [pyLower, String.append]

theorem pyLower_charToString (c : Char) : pyLower c.toString = (lowerChar c).toString := rfl

theorem jGet_dictSet_self (o : JObj) (k : String) (v : JValue) :
    jGet (dictSet o k v) k = some v := by
  induction o with
  | nil => simp [dictSet, jGet]
  | cons kv rest ih =>
    by_cases h : kv.1 = k
    · simp [dictSet, jGet, h]
    · simp [dictSet, jGet, h, ih]

theorem jGet_dictSet_ne (o : JObj) (k' k : String) (v : JValue) (h : k' ≠ k) :
    jGet (dictSet o k' v) k = jGet o k := by
  induction o with
  | nil => simp [dictSet, jGet, h]
  | cons kv rest ih =>
    by_cases h2 : kv.1 = k'
    · simp [dictSet, jGet, h2, h]
    · simp only [dictSet, h2, if_false]
      by_cases h3 : kv.1 = k
      · simp [jGet, h3]
      · simp [jGet, h3, ih]

theorem payloadExcept_dictSet (keys : List String) (o : JObj) (k : String) (v : JValue)
    (h : keys.contains k = true) :
    payloadExcept keys (dictSet o k v) = payloadExcept keys o := by
  have hk : k ∈ keys := by simpa using h
  induction o with
  | nil => simp [dictSet, payloadExcept, hk]
  | cons kv rest ih =>
    obtain ⟨k1, v1⟩ := kv
    by_cases h2 : k1 = k
    · subst h2
      simp [dictSet, payloadExcept, hk]
    · simp only [payloadExcept] at ih ⊢
      simp only [dictSet, if_neg h2, List.filter_cons]
      cases hb : !(keys.contains (k1, v1).1) <;> simp [hb] <;> simpa using ih

theorem newEntriesKeys_mem (ms : List String) :
    ∀ w m, m ∈ newEntriesKeys ms w ↔ m ∈ ms ∧ m ∉ w := by
  induction ms with
  | nil => intro w m; simp [newEntriesKeys]
  | cons m' ms ih =>
    intro w m
    by_cases h : m' ∈ w
    · simp only [newEntriesKeys, if_pos h, ih]
      constructor
      · rintro ⟨hm, hw⟩; exact ⟨.tail _ hm, hw⟩
      · rintro ⟨hm, hw⟩
        cases hm with
        | head => exact absurd h hw
        | tail _ hm => exact ⟨hm, hw⟩
    · simp only [newEntriesKeys, if_neg h]
      constructor
      · intro hm
        cases hm with
        | head => exact ⟨.head _, h⟩
        | tail _ hm =>
          obtain ⟨h1, h2⟩ := (ih _ _).1 hm
          refine ⟨.tail _ h1, fun hw => h2 (.tail _ hw)⟩
      · rintro ⟨hm, hw⟩
        cases hm with
        | head => exact .head _
        | tail _ hm =>
          by_cases he : m = m'
          · subst he; exact .head _
          · exact .tail _ ((ih _ _).2 ⟨hm, by simp [hw, he]⟩)

theorem newEntriesKeys_nodup (ms : List String) :
    ∀ w, (newEntriesKeys ms w).Nodup := by
  induction ms with
  | nil => intro w; simp [newEntriesKeys]
  | cons m' ms ih =>
    intro w
    by_cases h : m' ∈ w
    · simpa [newEntriesKeys, h] using ih w
    · simp only [newEntriesKeys, if_neg h, List.nodup_cons]
      refine ⟨fun hmem => ?_, ih _⟩
      exact ((newEntriesKeys_mem ms _ m').1 hmem).2 (.head _)


theorem assembleLoop_cons (staging : String → Option (List Nat)) (d : Costume)
    (cs : List JValue) (written : List String) (acc : List ZipEntry) :
    assembleLoop staging (costumeToJValue d :: cs) written acc =
      if d.md5ext ∈ written then assembleLoop staging cs written acc
      else
        match staging d.md5ext with
        | some b => assembleLoop staging cs (d.md5ext :: written) (acc ++ [⟨d.md5ext, .bin b⟩])
        | none => (acc, some (.missingAsset d.md5ext)) := by
  obtain ⟨a, n, bm, m, df, rx, ry⟩ := d
  cases bm <;> rfl

theorem assembleLoop_cons_mem (staging : String → Option (List Nat)) (d : Costume)
    (cs : List JValue) (written : List String) (acc : List ZipEntry)
    (h : d.md5ext ∈ written) :
    assembleLoop staging (costumeToJValue d :: cs) written acc =
      assembleLoop staging cs written acc := by
  rw [assembleLoop_cons, if_pos h]

theorem assembleLoop_cons_new (staging : String → Option (List Nat)) (d : Costume)
    (cs : List JValue) (written : List String) (acc : List ZipEntry) (b : List Nat)
    (h : d.md5ext ∉ written) (hb : staging d.md5ext = some b) :
    assembleLoop staging (costumeToJValue d :: cs) written acc =
      assembleLoop staging cs (d.md5ext :: written) (acc ++ [⟨d.md5ext, .bin b⟩]) := by
  rw [assembleLoop_cons, if_neg h, hb]

theorem assembleLoop_cons_missing (staging : String → Option (List Nat)) (d : Costume)
    (cs : List JValue) (written : List String) (acc : List ZipEntry)
    (h : d.md5ext ∉ written) (hb : staging d.md5ext = none) :
    assembleLoop staging (costumeToJValue d :: cs) written acc =
      (acc, some (.missingAsset d.md5ext)) := by
  rw [assembleLoop_cons, if_neg h, hb]

theorem assembleLoop_ok (staging : String → Option (List Nat)) (descs : List Costume) :
    ∀ written acc,
      (∀ d ∈ descs, d.md5ext ∈ written ∨ (staging d.md5ext).isSome) →
      assembleLoop staging (descs.map costumeToJValue) written acc =
        (acc ++ (newEntriesKeys (descs.map (fun d => d.md5ext)) written).map
          (fun m => ⟨m, .bin ((staging m).getD [])⟩), none) := by
  induction descs with
  | nil => intro written acc _; simp [assembleLoop, newEntriesKeys]
  | cons d rest ih =>
    intro written acc h
    rw [List.map_cons]
    by_cases hm : d.md5ext ∈ written
    · rw [assembleLoop_cons_mem staging d _ _ _ hm,
        ih written acc (fun d' hd' => h d' (.tail _ hd'))]
      simp [newEntriesKeys, hm]
    · have hsome : (staging d.md5ext).isSome :=
        (h d (.head _)).resolve_left hm
      obtain ⟨b, hb⟩ := Option.isSome_iff_exists.1 hsome
      have hrest : ∀ d' ∈ rest, d'.md5ext ∈ d.md5ext :: written ∨ (staging d'.md5ext).isSome :=
        fun d' hd' => (h d' (.tail _ hd')).imp (fun h' => .tail _ h') id
      rw [assembleLoop_cons_new staging d _ _ _ b hm hb,
        ih (d.md5ext :: written) _ hrest]
      simp [newEntriesKeys, hm, hb]

theorem assembleLoop_missing (staging : String → Option (List Nat)) (descs : List Costume) :
    ∀ written acc,
      (∀ m ∈ written, (staging m).isSome) →
      (∀ e ∈ acc, ∃ b, e.data = EntryData.bin b) →
      (∃ d ∈ descs, staging d.md5ext = none) →
      ∃ m entries, staging m = none ∧
        assembleLoop staging (descs.map costumeToJValue) written acc =
          (entries, some (.missingAsset m)) ∧
        (∀ e ∈ entries, ∃ b, e.data = EntryData.bin b) := by
  induction descs with
  | nil => intro _ _ _ _ hex; simp at hex
  | cons d rest ih =>
    intro written acc hw hacc hex
    rw [List.map_cons]
    by_cases hm : d.md5ext ∈ written
    · rw [assembleLoop_cons_mem staging d _ _ _ hm]
      apply ih written acc hw hacc
      obtain ⟨d', hd', hnone⟩ := hex
      cases hd' with
      | head =>
        have := hw _ hm
        rw [hnone] at this
        cases this
      | tail _ h' => exact ⟨d', h', hnone⟩
    · cases hb : staging d.md5ext with
      | none =>
        rw [assembleLoop_cons_missing staging d _ _ _ hm hb]
        exact ⟨d.md5ext, acc, hb, rfl, hacc⟩
      | some b =>
        rw [assembleLoop_cons_new staging d _ _ _ b hm hb]
        apply ih (d.md5ext :: written)
          (acc ++ [({ arcname := d.md5ext, data := EntryData.bin b } : ZipEntry)])
        · intro m hm'
          cases hm' with
          | head => simp [hb]
          | tail _ h' => exact hw _ h'
        · intro e he
          rcases List.mem_append.1 he with h' | h'
          · exact hacc e h'
          · simp at h'
            subst h'
            exact ⟨b, rfl⟩
        · obtain ⟨d', hd', hnone⟩ := hex
          cases hd' with
          | head =>
            rw [hnone] at hb
            cases hb
          | tail _ h' => exact ⟨d', h', hnone⟩

theorem charGlyphs_ok_raster (env : Raster.RenderEnv) (f : Raster.RFont) :
    ∀ chars l, Raster.charGlyphs env f chars = .ok l →
      l = chars.map (fun c =>
        Raster.generate_glyph env f.filename (nameOf f.id c) (Raster.labelFor c)) := by
  intro chars
  induction chars with
  | nil =>
    intro l h
    simp only [Raster.charGlyphs] at h
    cases h
    simp
  | cons c cs ih =>
    intro l h
    simp only [Raster.charGlyphs] at h
    cases hn : name_for f.id c with
    | error e => rw [hn] at h; cases h
    | ok n =>
      rw [hn] at h
      cases hr : Raster.charGlyphs env f cs with
      | error e => rw [hr] at h; cases h
      | ok rest =>
        rw [hr] at h
        cases h
        rw [List.map_cons, ← ih rest hr]
        have : nameOf f.id c = n := by simp [nameOf, hn]
        rw [this]

theorem generate_glyphs_ok_raster (env : Raster.RenderEnv) :
    ∀ fonts chars l, Raster.generate_glyphs env fonts chars = .ok l →
      l = fonts.flatMap (Raster.fontBlock env chars) := by
  intro fonts
  induction fonts with
  | nil =>
    intro chars l h
    simp only [Raster.generate_glyphs] at h
    cases h
    simp
  | cons f fs ih =>
    intro chars l h
    simp only [Raster.generate_glyphs] at h
    cases hc : Raster.charGlyphs env f chars with
    | error e => rw [hc] at h; cases h
    | ok block =>
      rw [hc] at h
      cases hr : Raster.generate_glyphs env fs chars with
      | error e => rw [hr] at h; cases h
      | ok rest =>
        rw [hr] at h
        cases h
        rw [List.flatMap_cons, ← ih chars rest hr, Raster.fontBlock,
          ← charGlyphs_ok_raster env f chars block hc, List.cons_append]

theorem charGlyphs_ok_vector (env : Vector.RenderEnv) (f : Vector.VFont) :
    ∀ chars l, Vector.charGlyphs env f chars = .ok l →
      l = chars.map (fun c =>
        Vector.generate_glyph env f.fontname (nameOf f.id c) c.toString) := by
  intro chars
  induction chars with
  | nil =>
    intro l h
    simp only [Vector.charGlyphs] at h
    cases h
    simp
  | cons c cs ih =>
    intro l h
    simp only [Vector.charGlyphs] at h
    cases hn : name_for f.id c with
    | error e => rw [hn] at h; cases h
    | ok n =>
      rw [hn] at h
      cases hr : Vector.charGlyphs env f cs with
      | error e => rw [hr] at h; cases h
      | ok rest =>
        rw [hr] at h
        cases h
        rw [List.map_cons, ← ih rest hr]
        have : nameOf f.id c = n := by simp [nameOf, hn]
        rw [this]

theorem generate_glyphs_ok_vector (env : Vector.RenderEnv) :
    ∀ fonts chars l, Vector.generate_glyphs env fonts chars = .ok l →
      l = fonts.flatMap (Vector.fontBlock env chars) := by
  intro fonts
  induction fonts with
  | nil =>
    intro chars l h
    simp only [Vector.generate_glyphs] at h
    cases h
    simp
  | cons f fs ih =>
    intro chars l h
    simp only [Vector.generate_glyphs] at h
    cases hc : Vector.charGlyphs env f chars with
    | error e => rw [hc] at h; cases h
    | ok block =>
      rw [hc] at h
      cases hr : Vector.generate_glyphs env fs chars with
      | error e => rw [hr] at h; cases h
      | ok rest =>
        rw [hr] at h
        cases h
        rw [List.flatMap_cons, ← ih chars rest hr, Vector.fontBlock,
          ← charGlyphs_ok_vector env f chars block hc, List.cons_append]

theorem isSuffixOf_data_append (s t : String) :
    t.data.isSuffixOf (s ++ t).data = true := by
  rw [String.data_append]
  simp only [List.isSuffixOf_iff_suffix]
  exact List.suffix_append s.data t.data

theorem mem_glyphs_shape_raster (env : Raster.RenderEnv) (fonts : List Raster.RFont)
    (chars : List Char) (l : List Raster.GlyphOut)
    (h : Raster.generate_glyphs env fonts chars = .ok l) :
    ∀ g ∈ l, ∃ fo n lb, g = Raster.generate_glyph env fo n lb := by
  intro g hg
  rw [generate_glyphs_ok_raster env fonts chars l h] at hg
  obtain ⟨f, _, hgf⟩ := List.mem_flatMap.1 hg
  cases hgf with
  | head => exact ⟨Raster.replacement_font, f.id ++ "-replaceable",
      "label:" ++ Raster.replacement_character.toString, rfl⟩
  | tail _ hmem =>
    obtain ⟨c, _, hc⟩ := List.mem_map.1 hmem
    exact ⟨f.filename, nameOf f.id c, Raster.labelFor c, hc.symm⟩

theorem mem_glyphs_shape_vector (env : Vector.RenderEnv) (fonts : List Vector.VFont)
    (chars : List Char) (l : List Vector.GlyphOut)
    (h : Vector.generate_glyphs env fonts chars = .ok l) :
    ∀ g ∈ l, ∃ fo n ch, g = Vector.generate_glyph env fo n ch := by
  intro g hg
  rw [generate_glyphs_ok_vector env fonts chars l h] at hg
  obtain ⟨f, _, hgf⟩ := List.mem_flatMap.1 hg
  cases hgf with
  | head => exact ⟨f.fontname, f.id ++ "-replaceable", (Char.ofNat 0xFFFD).toString, rfl⟩
  | tail _ hmem =>
    obtain ⟨c, _, hc⟩ := List.mem_map.1 hmem
    exact ⟨f.fontname, nameOf f.id c, c.toString, hc.symm⟩

/-! ### Claim theorems -/

/-- Claim C2: `name_for`, as a pure function of `(font_id, character)`,
returns `"{font_id}-{character}"` for ASCII lowercase letters and
digits, `"{font_id}-upper-{character}"` with the uppercase letter's case
preserved for ASCII uppercase letters, and otherwise
`"{font_id}-special-{unicode-name}"` built from the lowercased Unicode
long name with underscores and spaces replaced by hyphens, the whole
result lowercased; in particular `name_for "sans" 'a' = "sans-a"`,
`name_for "sans" 'A' = "sans-upper-A"`, and
`name_for "sans" '/' = "sans-special-solidus"`.  The first rule's
verbatim-template reading holds for font identifiers that are already
lowercase, as all configured identifiers are. -/
theorem name_for_rules :
    ∀ font_id : String, pyLower font_id = font_id →
      (∀ c ∈ lowerdigits.data, name_for font_id c = .ok (font_id ++ "-" ++ c.toString)) ∧
      (∀ c ∈ uppercaseLetters.data,
        name_for font_id c = .ok (font_id ++ "-upper-" ++ c.toString)) ∧
      (∀ c n, c ∉ lowerdigits.data → c ∉ uppercaseLetters.data →
        unicodedataName c = some n →
        name_for font_id c = .ok (pyLower (font_id ++ "-special-" ++
          strReplaceChar (strReplaceChar (pyLower n) '_' '-') ' ' '-'))) ∧
      (∀ c ∈ characters.data, ∃ n, name_for font_id c = .ok n) ∧
      name_for "sans" 'a' = .ok "sans-a" ∧
      name_for "sans" 'A' = .ok "sans-upper-A" ∧
      name_for "sans" '/' = .ok "sans-special-solidus" ∧
      name_for "sans" '=' = .ok "sans-special-equals-sign" := by
  intro font_id hlow
  refine ⟨?_, ?_, ?_, ?_, by decide, by decide, by decide, by decide⟩
  · intro c hc
    have hlc : lowerChar c = c := by
      have h : ∀ x ∈ lowerdigits.data, lowerChar x = x := by decide
      exact h c hc
    simp only [name_for, if_pos hc]
    congr 1
    have hdash : pyLower "-" = "-" := rfl
    rw [pyLower_append, pyLower_append, hlow, pyLower_charToString, hlc, hdash]
  · intro c hc
    have hne : c ∉ lowerdigits.data := by
      have h : ∀ x ∈ uppercaseLetters.data, x ∉ lowerdigits.data := by decide
      exact h c hc
    simp only [name_for, if_neg hne, if_pos hc]
  · intro c n h1 h2 h3
    simp only [name_for, if_neg h1, if_neg h2, h3]
  · intro c hc
    by_cases h1 : c ∈ lowerdigits.data
    · exact ⟨pyLower (font_id ++ "-" ++ c.toString), by simp only [name_for, if_pos h1]⟩
    · by_cases h2 : c ∈ uppercaseLetters.data
      · exact ⟨font_id ++ "-upper-" ++ c.toString,
          by simp only [name_for, if_neg h1, if_pos h2]⟩
      · have hsome : (unicodedataName c).isSome := by
          have hall : ∀ x ∈ characters.data, x ∉ lowerdigits.data →
              x ∉ uppercaseLetters.data → (unicodedataName x).isSome := by decide
          exact hall c hc h1 h2
        obtain ⟨n, hn⟩ := Option.isSome_iff_exists.1 hsome
        exact ⟨pyLower (font_id ++ "-special-" ++
            strReplaceChar (strReplaceChar (pyLower n) '_' '-') ' ' '-'),
          by simp only [name_for, if_neg h1, if_neg h2, hn]⟩

/-- Witness for C2 at the configured identifier `"sans"`, covering the
whole configured character set. -/
theorem name_for_rules_witness :
    pyLower "sans" = "sans" ∧
    name_for "sans" 'a' = .ok "sans-a" ∧
    name_for "sans" 'A' = .ok "sans-upper-A" ∧
    name_for "sans" '/' = .ok "sans-special-solidus" ∧
    name_for "sans" '=' = .ok "sans-special-equals-sign" ∧
    (∀ c ∈ characters.data, ∃ n, name_for "sans" c = .ok n) := by
  have hl : pyLower "sans" = "sans" := by decide
  have h := name_for_rules "sans" hl
  exact ⟨hl, h.2.2.2.2.1, h.2.2.2.2.2.1, h.2.2.2.2.2.2.1, h.2.2.2.2.2.2.2, h.2.2.2.1⟩

/-- Claim C10: `name_for` is partial outside the configured character
set: for a character that is neither an ASCII letter nor a digit and
whose code point has no assigned Unicode name (for example U+0000), the
`unicodedata.name` lookup raises `ValueError` instead of returning a
name. -/
theorem name_for_unassigned_value_error :
    ∀ (font_id : String) (c : Char),
      c ∉ lowerdigits.data → c ∉ uppercaseLetters.data →
      unicodedataName c = none →
      name_for font_id c = .error .valueError := by
  intro font_id c h1 h2 h3
  simp only [name_for, if_neg h1, if_neg h2, h3]

/-- Witness for C10 at U+0000. -/
theorem name_for_unassigned_value_error_witness :
    (Char.ofNat 0 ∉ lowerdigits.data ∧ Char.ofNat 0 ∉ uppercaseLetters.data ∧
      unicodedataName (Char.ofNat 0) = none) ∧
    name_for "sans" (Char.ofNat 0) = .error .valueError :=
  ⟨⟨by decide, by decide, rfl⟩,
   name_for_unassigned_value_error "sans" (Char.ofNat 0) (by decide) (by decide) rfl⟩

/-- Claim C7: render-spec escaping.  Raster mode: space maps to the
literal-space label directive `label:\ `, backslash to the
double-escaped `label:\\`, every other character to the direct
`label:{character}` directive.  Vector mode: only `&`, `<`, `>` are
replaced by their XML entities before the character is embedded in the
SVG text node; every other character is embedded verbatim. -/
theorem render_spec_escaping :
    Raster.labelFor ' ' = "label:\\ " ∧
    Raster.labelFor '\\' = "label:\\\\" ∧
    (∀ c : Char, c ≠ ' ' → c ≠ '\\' → Raster.labelFor c = "label:" ++ c.toString) ∧
    Vector.svgReplacements "&" = some "&amp;" ∧
    Vector.svgReplacements "<" = some "&lt;" ∧
    Vector.svgReplacements ">" = some "&gt;" ∧
    (∀ s : String, s ≠ "&" → s ≠ "<" → s ≠ ">" → Vector.svgReplacements s = none) ∧
    (∀ character font : String,
      Vector.svg_letter character font =
        Vector.svgPart1 ++ font ++ Vector.svgPart2 ++
          (Vector.svgReplacements character).getD character ++ Vector.svgPart3) := by
  refine ⟨rfl, rfl, ?_, rfl, rfl, rfl, ?_, fun _ _ => rfl⟩
  · intro c h1 h2
    simp [Raster.labelFor, Raster.label_specials, h1, h2]
  · intro s h1 h2 h3
    simp [Vector.svgReplacements, h1, h2, h3]

/-- Witness for C7 at the unescaped character `x`. -/
theorem render_spec_escaping_witness :
    ('x' ≠ ' ' ∧ 'x' ≠ '\\' ∧ ("x" : String) ≠ "&") ∧
    Raster.labelFor 'x' = "label:" ++ ('x').toString ∧
    Vector.svgReplacements "x" = none :=
  ⟨⟨by decide, by decide, by decide⟩,
   render_spec_escaping.2.2.1 'x' (by decide) (by decide),
   render_spec_escaping.2.2.2.2.2.2.1 "x" (by decide) (by decide) (by decide)⟩

/-- Claim C9: every raster descriptor carries rotation centers equal to
half the 240×320 canvas (120 and 160) and `bitmapResolution = 2`; every
vector descriptor carries rotation centers equal to half the 40×50
canvas (20 and 25) and no `bitmapResolution` field at all. -/
theorem rotation_centers_and_bitmap_resolution :
    Raster.width = 240 ∧ Raster.height = 320 ∧ Vector.width = 40 ∧ Vector.height = 50 ∧
    (∀ (env : Raster.RenderEnv) (font name label : String),
      (Raster.generate_glyph env font name label).costume.rotationCenterX = Raster.width / 2 ∧
      (Raster.generate_glyph env font name label).costume.rotationCenterX = 120 ∧
      (Raster.generate_glyph env font name label).costume.rotationCenterY = Raster.height / 2 ∧
      (Raster.generate_glyph env font name label).costume.rotationCenterY = 160 ∧
      (Raster.generate_glyph env font name label).costume.bitmapResolution = some 2 ∧
      jGetV (costumeToJValue (Raster.generate_glyph env font name label).costume)
        "bitmapResolution" = some (.num 2)) ∧
    (∀ (env : Vector.RenderEnv) (font name character : String),
      (Vector.generate_glyph env font name character).costume.rotationCenterX = Vector.width / 2 ∧
      (Vector.generate_glyph env font name character).costume.rotationCenterX = 20 ∧
      (Vector.generate_glyph env font name character).costume.rotationCenterY = Vector.height / 2 ∧
      (Vector.generate_glyph env font name character).costume.rotationCenterY = 25 ∧
      (Vector.generate_glyph env font name character).costume.bitmapResolution = none ∧
      jGetV (costumeToJValue (Vector.generate_glyph env font name character).costume)
        "bitmapResolution" = none) :=
  ⟨rfl, rfl, rfl, rfl,
   fun _ _ _ _ => ⟨rfl, rfl, rfl, rfl, rfl, rfl⟩,
   fun _ _ _ _ => ⟨rfl, rfl, rfl, rfl, rfl, rfl⟩⟩

/-- Claim C5: for every font list, the glyph stream emits descriptors
grouped by font in configured order — each font contributing its
fallback descriptor first, then one descriptor per character in
configured character-set order — so the very first descriptor emitted is
the first font's fallback glyph, whose name ends in `-replaceable`.
Stated for both the raster and the vector script. -/
theorem glyph_stream_ordering :
    (∀ (env : Raster.RenderEnv) (fonts : List Raster.RFont) (chars : List Char)
        (l : List Raster.GlyphOut),
      Raster.generate_glyphs env fonts chars = .ok l →
      l = fonts.flatMap (Raster.fontBlock env chars) ∧
      l.head?.map (fun g => g.costume.name) =
        fonts.head?.map (fun f => f.id ++ "-replaceable") ∧
      (∀ g, l.head? = some g →
        "-replaceable".data.isSuffixOf g.costume.name.data = true)) ∧
    (∀ (env : Vector.RenderEnv) (fonts : List Vector.VFont) (chars : List Char)
        (l : List Vector.GlyphOut),
      Vector.generate_glyphs env fonts chars = .ok l →
      l = fonts.flatMap (Vector.fontBlock env chars) ∧
      l.head?.map (fun g => g.costume.name) =
        fonts.head?.map (fun f => f.id ++ "-replaceable") ∧
      (∀ g, l.head? = some g →
        "-replaceable".data.isSuffixOf g.costume.name.data = true)) := by
  constructor
  · intro env fonts chars l h
    have hs := generate_glyphs_ok_raster env fonts chars l h
    subst hs
    refine ⟨rfl, ?_, ?_⟩
    · cases fonts with
      | nil => rfl
      | cons f fs =>
        simp only [List.flatMap_cons, Raster.fontBlock, List.cons_append, List.head?_cons,
          Option.map_some']
        rfl
    · intro g hg
      cases fonts with
      | nil => cases hg
      | cons f fs =>
        simp [Raster.fontBlock] at hg
        rw [← hg]
        exact isSuffixOf_data_append f.id "-replaceable"
  · intro env fonts chars l h
    have hs := generate_glyphs_ok_vector env fonts chars l h
    subst hs
    refine ⟨rfl, ?_, ?_⟩
    · cases fonts with
      | nil => rfl
      | cons f fs =>
        simp only [List.flatMap_cons, Vector.fontBlock, List.cons_append, List.head?_cons,
          Option.map_some']
        rfl
    · intro g hg
      cases fonts with
      | nil => cases hg
      | cons f fs =>
        simp [Vector.fontBlock] at hg
        rw [← hg]
        exact isSuffixOf_data_append f.id "-replaceable"

/-- Witness for C5: the streams over the configured font lists and the
full configured character set succeed in both modes and have the
claimed shape. -/
theorem glyph_stream_ordering_witness :
    Raster.generate_glyphs wREnv Raster.fonts characters.data = .ok wRListFull ∧
    Vector.generate_glyphs wVEnv Vector.fonts characters.data = .ok wVListFull ∧
    wRListFull = Raster.fonts.flatMap (Raster.fontBlock wREnv characters.data) ∧
    wRListFull.head?.map (fun g => g.costume.name) = some "sans-replaceable" ∧
    "-replaceable".data.isSuffixOf
      (Raster.fallbackGlyph wREnv wRFont).costume.name.data = true ∧
    wVListFull = Vector.fonts.flatMap (Vector.fontBlock wVEnv characters.data) ∧
    wVListFull.head?.map (fun g => g.costume.name) = some "handwriting-replaceable" := by
  have h1 : Raster.generate_glyphs wREnv Raster.fonts characters.data = .ok wRListFull := rfl
  have h2 : Vector.generate_glyphs wVEnv Vector.fonts characters.data = .ok wVListFull := rfl
  obtain ⟨hsR, hhR, hfR⟩ :=
    glyph_stream_ordering.1 wREnv Raster.fonts characters.data wRListFull h1
  obtain ⟨hsV, hhV, _⟩ :=
    glyph_stream_ordering.2 wVEnv Vector.fonts characters.data wVListFull h2
  exact ⟨h1, h2, hsR, hhR, hfR (Raster.fallbackGlyph wREnv wRFont) rfl, hsV, hhV⟩

/-- Claim C6: every font's fallback glyph is generated from the Unicode
replacement character U+FFFD; the raster script renders it with the
fixed `replacement_font` unconditionally (the constant path, not the
target font's file), while the vector script renders it with the target
font's own family name. -/
theorem fallback_glyph_render_calls :
    Raster.replacement_character = Char.ofNat 0xFFFD ∧
    (∀ (env : Raster.RenderEnv) (fonts : List Raster.RFont) (chars : List Char)
        (l : List Raster.GlyphOut),
      Raster.generate_glyphs env fonts chars = .ok l →
      ∀ f ∈ fonts,
        (f.id ++ "-replaceable", Raster.replacement_font,
          "label:" ++ (Char.ofNat 0xFFFD).toString) ∈
          l.map (fun g => (g.costume.name, g.callFont, g.callSpec))) ∧
    (∀ (env : Vector.RenderEnv) (fonts : List Vector.VFont) (chars : List Char)
        (l : List Vector.GlyphOut),
      Vector.generate_glyphs env fonts chars = .ok l →
      ∀ f ∈ fonts,
        (f.id ++ "-replaceable", f.fontname, (Char.ofNat 0xFFFD).toString) ∈
          l.map (fun g => (g.costume.name, g.callFont, g.callSpec))) := by
  refine ⟨rfl, ?_, ?_⟩
  · intro env fonts chars l h f hf
    rw [generate_glyphs_ok_raster env fonts chars l h]
    exact List.mem_map.2 ⟨Raster.fallbackGlyph env f,
      List.mem_flatMap.2 ⟨f, hf, List.mem_cons_self _ _⟩, rfl⟩
  · intro env fonts chars l h f hf
    rw [generate_glyphs_ok_vector env fonts chars l h]
    exact List.mem_map.2 ⟨Vector.fallbackGlyph env f,
      List.mem_flatMap.2 ⟨f, hf, List.mem_cons_self _ _⟩, rfl⟩

/-- Witness for C6: the fallback render calls of concrete streams. -/
theorem fallback_glyph_render_calls_witness :
    Raster.generate_glyphs wREnv [wRFont] ['a'] = .ok wRList ∧
    Vector.generate_glyphs wVEnv [wVFont] ['a'] = .ok wVList ∧
    ("sans-replaceable", Raster.replacement_font,
      "label:" ++ (Char.ofNat 0xFFFD).toString) ∈
      wRList.map (fun g => (g.costume.name, g.callFont, g.callSpec)) ∧
    ("handwriting-replaceable", "Handwriting", (Char.ofNat 0xFFFD).toString) ∈
      wVList.map (fun g => (g.costume.name, g.callFont, g.callSpec)) := by
  have h1 : Raster.generate_glyphs wREnv [wRFont] ['a'] = .ok wRList := rfl
  have h2 : Vector.generate_glyphs wVEnv [wVFont] ['a'] = .ok wVList := rfl
  refine ⟨h1, h2, ?_, ?_⟩
  · exact fallback_glyph_render_calls.2.1 wREnv [wRFont] ['a'] wRList h1 wRFont
      (List.mem_cons_self _ _)
  · exact fallback_glyph_render_calls.2.2 wVEnv [wVFont] ['a'] wVList h2 wVFont
      (List.mem_cons_self _ _)

/-- Claim C8: for every descriptor produced by the glyph stream,
`assetId` is the hexdigest of the exact bytes written to the staging
file named `md5ext`, and `md5ext` is `assetId` plus the mode's format
extension (`.png` raster, `.svg` vector); whenever the digest function
produces 32-character lowercase hex strings (as `hashlib.md5` does),
every `assetId` has that shape; and whenever the digest is
collision-free on the staged contents, descriptors with equal `assetId`
reference byte-identical staged content. -/
theorem descriptor_digest_invariant :
    (∀ (env : Raster.RenderEnv) (fonts : List Raster.RFont) (chars : List Char)
        (l : List Raster.GlyphOut),
      Raster.generate_glyphs env fonts chars = .ok l →
      (∀ g ∈ l,
        g.costume.assetId = env.md5 g.stagedData ∧
        g.stagedName = g.costume.md5ext ∧
        g.costume.md5ext = g.costume.assetId ++ ".png") ∧
      ((∀ b, isHex32 (env.md5 b) = true) →
        ∀ g ∈ l, isHex32 g.costume.assetId = true) ∧
      ((∀ g1 ∈ l, ∀ g2 ∈ l,
          env.md5 g1.stagedData = env.md5 g2.stagedData →
          g1.stagedData = g2.stagedData) →
        ∀ g1 ∈ l, ∀ g2 ∈ l,
          g1.costume.assetId = g2.costume.assetId →
          g1.stagedData = g2.stagedData)) ∧
    (∀ (env : Vector.RenderEnv) (fonts : List Vector.VFont) (chars : List Char)
        (l : List Vector.GlyphOut),
      Vector.generate_glyphs env fonts chars = .ok l →
      (∀ g ∈ l,
        g.costume.assetId = env.md5 g.stagedData ∧
        g.stagedName = g.costume.md5ext ∧
        g.costume.md5ext = g.costume.assetId ++ ".svg") ∧
      ((∀ b, isHex32 (env.md5 b) = true) →
        ∀ g ∈ l, isHex32 g.costume.assetId = true) ∧
      ((∀ g1 ∈ l, ∀ g2 ∈ l,
          env.md5 g1.stagedData = env.md5 g2.stagedData →
          g1.stagedData = g2.stagedData) →
        ∀ g1 ∈ l, ∀ g2 ∈ l,
          g1.costume.assetId = g2.costume.assetId →
          g1.stagedData = g2.stagedData)) := by
  constructor
  · intro env fonts chars l h
    have hshape := mem_glyphs_shape_raster env fonts chars l h
    have hbase : ∀ g ∈ l,
        g.costume.assetId = env.md5 g.stagedData ∧
        g.stagedName = g.costume.md5ext ∧
        g.costume.md5ext = g.costume.assetId ++ ".png" := by
      intro g hg
      obtain ⟨fo, n, lb, rfl⟩ := hshape g hg
      exact ⟨rfl, rfl, rfl⟩
    refine ⟨hbase, ?_, ?_⟩
    · intro hhex g hg
      rw [(hbase g hg).1]
      exact hhex _
    · intro hinj g1 h1 g2 h2 heq
      apply hinj g1 h1 g2 h2
      rw [← (hbase g1 h1).1, ← (hbase g2 h2).1]
      exact heq
  · intro env fonts chars l h
    have hshape := mem_glyphs_shape_vector env fonts chars l h
    have hbase : ∀ g ∈ l,
        g.costume.assetId = env.md5 g.stagedData ∧
        g.stagedName = g.costume.md5ext ∧
        g.costume.md5ext = g.costume.assetId ++ ".svg" := by
      intro g hg
      obtain ⟨fo, n, ch, rfl⟩ := hshape g hg
      exact ⟨rfl, rfl, rfl⟩
    refine ⟨hbase, ?_, ?_⟩
    · intro hhex g hg
      rw [(hbase g hg).1]
      exact hhex _
    · intro hinj g1 h1 g2 h2 heq
      apply hinj g1 h1 g2 h2
      rw [← (hbase g1 h1).1, ← (hbase g2 h2).1]
      exact heq

/-- Witness for C8: one-glyph streams under an environment whose digest
is 32-character lowercase hex and collision-free on the staged data. -/
theorem descriptor_digest_invariant_witness :
    Raster.generate_glyphs wREnv [wRFont] [] = .ok wRList0 ∧
    Vector.generate_glyphs wVEnv [wVFont] [] = .ok wVList0 ∧
    (∀ g ∈ wRList0,
      g.costume.assetId = wREnv.md5 g.stagedData ∧
      g.stagedName = g.costume.md5ext ∧
      g.costume.md5ext = g.costume.assetId ++ ".png") ∧
    (∀ g ∈ wRList0, isHex32 g.costume.assetId = true) ∧
    (∀ g1 ∈ wRList0, ∀ g2 ∈ wRList0,
      g1.costume.assetId = g2.costume.assetId → g1.stagedData = g2.stagedData) ∧
    (∀ g ∈ wVList0,
      g.costume.assetId = wVEnv.md5 g.stagedData ∧
      g.stagedName = g.costume.md5ext ∧
      g.costume.md5ext = g.costume.assetId ++ ".svg") ∧
    (∀ g ∈ wVList0, isHex32 g.costume.assetId = true) := by
  have h1 : Raster.generate_glyphs wREnv [wRFont] [] = .ok wRList0 := rfl
  have h2 : Vector.generate_glyphs wVEnv [wVFont] [] = .ok wVList0 := rfl
  obtain ⟨haR, hbR, hcR⟩ := descriptor_digest_invariant.1 wREnv [wRFont] [] wRList0 h1
  obtain ⟨haV, hbV, _⟩ := descriptor_digest_invariant.2 wVEnv [wVFont] [] wVList0 h2
  have hhex : isHex32 wHex = true := by decide
  refine ⟨h1, h2, haR, hbR (fun _ => hhex), hcR ?_, haV, hbV (fun _ => hhex)⟩
  intro g1 hg1 g2 hg2 _
  have e1 : g1 = Raster.fallbackGlyph wREnv wRFont := by simpa [wRList0] using hg1
  have e2 : g2 = Raster.fallbackGlyph wREnv wRFont := by simpa [wRList0] using hg2
  rw [e1, e2]

/-- Claim C1: for every descriptor list fed to the assemble phase (as
the manifest's `costumes` value), with all referenced blobs staged, the
output archive contains exactly one stored binary entry per distinct
`md5ext` — the first occurrence writes the blob, later duplicates skip
the copy — while every descriptor, duplicates included, is kept in the
serialized manifest's `costumes` list in the order received. -/
theorem map_arcname_mk (staging : String → Option (List Nat)) (keys : List String) :
    (keys.map (fun m =>
      ({ arcname := m, data := EntryData.bin ((staging m).getD []) } : ZipEntry))).map
        (fun e => e.arcname) = keys := by
  induction keys with
  | nil => rfl
  | cons k ks ih => simp [ih]

theorem assemble_dedup_and_manifest_order :
    ∀ (staging : String → Option (List Nat)) (sprite : JObj) (descs : List Costume),
      jGet sprite "costumes" = some (.arr (descs.map costumeToJValue)) →
      (∀ d ∈ descs, (staging d.md5ext).isSome) →
      ∃ bins : List ZipEntry,
        assemble_sprite sprite staging =
          ⟨some (bins ++ [⟨"sprite.json", .txt (dumps (.obj sprite))⟩]), none⟩ ∧
        bins.map (fun e => e.arcname) =
          newEntriesKeys (descs.map (fun d => d.md5ext)) [] ∧
        (bins.map (fun e => e.arcname)).Nodup ∧
        (∀ m, m ∈ bins.map (fun e => e.arcname) ↔ m ∈ descs.map (fun d => d.md5ext)) ∧
        (∀ e ∈ bins, ∃ b, staging e.arcname = some b ∧ e.data = .bin b) := by
  intro staging sprite descs h1 h2
  refine ⟨(newEntriesKeys (descs.map (fun d => d.md5ext)) []).map
    (fun m => ⟨m, .bin ((staging m).getD [])⟩), ?_, ?_, ?_, ?_, ?_⟩
  · simp only [assemble_sprite, h1]
    rw [assembleLoop_ok staging descs [] [] (fun d hd => .inr (h2 d hd))]
    rfl
  · exact map_arcname_mk staging _
  · rw [map_arcname_mk staging _]
    exact newEntriesKeys_nodup _ []
  · intro m
    rw [map_arcname_mk staging _, newEntriesKeys_mem]
    simp
  · intro e he
    obtain ⟨m, hmk, rfl⟩ := List.mem_map.1 he
    have hmem : m ∈ descs.map (fun d => d.md5ext) :=
      ((newEntriesKeys_mem _ _ _).1 hmk).1
    obtain ⟨d, hd, rfl⟩ := List.mem_map.1 hmem
    obtain ⟨b, hb⟩ := Option.isSome_iff_exists.1 (h2 d hd)
    exact ⟨b, hb, by simp [hb]⟩

/-- Witness for C1: two descriptors sharing one digest produce a single
stored blob and a two-element manifest list. -/
theorem assemble_dedup_and_manifest_order_witness :
    jGet wSprite "costumes" = some (.arr ([wCostumeA, wCostumeB].map costumeToJValue)) ∧
    (∀ d ∈ [wCostumeA, wCostumeB], (wStaging d.md5ext).isSome) ∧
    (∃ bins : List ZipEntry,
      assemble_sprite wSprite wStaging =
        ⟨some (bins ++ [⟨"sprite.json", .txt (dumps (.obj wSprite))⟩]), none⟩ ∧
      bins.map (fun e => e.arcname) =
        newEntriesKeys ([wCostumeA, wCostumeB].map (fun d => d.md5ext)) [] ∧
      (bins.map (fun e => e.arcname)).Nodup ∧
      (∀ m, m ∈ bins.map (fun e => e.arcname) ↔
        m ∈ [wCostumeA, wCostumeB].map (fun d => d.md5ext)) ∧
      (∀ e ∈ bins, ∃ b, wStaging e.arcname = some b ∧ e.data = .bin b)) :=
  ⟨rfl, by decide,
   assemble_dedup_and_manifest_order wStaging wSprite [wCostumeA, wCostumeB] rfl (by decide)⟩

/-- Counterexample to claim C3 as stated: on a manifest whose only
descriptor references an unstaged digest, assembly does fail with the
missing-asset error, but an output archive file is nevertheless left at
the output path (`ZipFile(path, 'w')` creates it before any staged file
is checked), so "no output archive file is written" is false. -/
theorem assemble_missing_leaves_file_counterexample :
    (assemble_sprite c3Sprite wStagingEmpty).error =
      some (.missingAsset (wHex ++ ".png")) ∧
    (assemble_sprite c3Sprite wStagingEmpty).outputFile ≠ none := by
  exact ⟨by decide, by decide⟩

/-- Claim C3, amended: if a descriptor's digest has no staged file,
assembly fails with the missing-asset error and no complete archive is
produced — the serialized manifest is never written, every entry present
is a staged binary blob — but a partial output file is left at the
output path (the claim's "no partial file is left" does not hold). -/
theorem assemble_missing_asset_partial_output :
    ∀ (staging : String → Option (List Nat)) (sprite : JObj) (descs : List Costume),
      jGet sprite "costumes" = some (.arr (descs.map costumeToJValue)) →
      (∃ d ∈ descs, staging d.md5ext = none) →
      ∃ m entries,
        staging m = none ∧
        assemble_sprite sprite staging = ⟨some entries, some (.missingAsset m)⟩ ∧
        (∀ e ∈ entries, ∃ b, e.data = EntryData.bin b) ∧
        (⟨"sprite.json", .txt (dumps (.obj sprite))⟩ : ZipEntry) ∉ entries := by
  intro staging sprite descs h1 hex
  obtain ⟨m, entries, hnone, hloop, hbin⟩ :=
    assembleLoop_missing staging descs [] [] (by simp) (by simp) hex
  refine ⟨m, entries, hnone, ?_, hbin, ?_⟩
  · simp only [assemble_sprite, h1]
    rw [hloop]
  · intro hmem
    obtain ⟨b, hb⟩ := hbin _ hmem
    cases hb

/-- Witness for C3 (amended): the concrete failing manifest. -/
theorem assemble_missing_asset_partial_output_witness :
    jGet c3Sprite "costumes" = some (.arr ([wCostumeA].map costumeToJValue)) ∧
    (∃ d ∈ [wCostumeA], wStagingEmpty d.md5ext = none) ∧
    (∃ m entries,
      wStagingEmpty m = none ∧
      assemble_sprite c3Sprite wStagingEmpty =
        ⟨some entries, some (.missingAsset m)⟩ ∧
      (∀ e ∈ entries, ∃ b, e.data = EntryData.bin b) ∧
      (⟨"sprite.json", .txt (dumps (.obj c3Sprite))⟩ : ZipEntry) ∉ entries) :=
  ⟨rfl, ⟨wCostumeA, List.mem_cons_self _ _, rfl⟩,
   assemble_missing_asset_partial_output wStagingEmpty c3Sprite [wCostumeA] rfl
     ⟨wCostumeA, List.mem_cons_self _ _, rfl⟩⟩

/-- Counterexample to claim C4 as stated: loading resets
`current_costume` to 0, so on an input manifest whose `current_costume`
is 1 the fields other than `costumes` and `sounds` are not byte-identical
after the round trip — the serialized payloads differ. -/
theorem roundtrip_payload_counterexample :
    (assemble_sprite (load_sprite_code c4Sprite) wStagingEmpty).error = none ∧
    jGet (load_sprite_code c4Sprite) "current_costume" = some (.num 0) ∧
    jGet c4Sprite "current_costume" = some (.num 1) ∧
    dumps (.obj (payloadExcept ["costumes", "sounds"] (load_sprite_code c4Sprite))) ≠
      dumps (.obj (payloadExcept ["costumes", "sounds"] c4Sprite)) := by
  exact ⟨rfl, rfl, rfl, by decide⟩

/-- Claim C4, amended: loading a manifest and assembling with an empty
descriptor list succeeds, writes an archive holding exactly the
serialized manifest, and that manifest has an empty `costumes` list and
`current_costume = 0`, with every field other than `costumes`, `sounds`
and `current_costume` (the three fields the loader rewrites) left
byte-identical to the original. -/
theorem roundtrip_empty_descriptors :
    ∀ (sprite : JObj) (staging : String → Option (List Nat)),
      (assemble_sprite (load_sprite_code sprite) staging).error = none ∧
      (assemble_sprite (load_sprite_code sprite) staging).outputFile =
        some [⟨"sprite.json", .txt (dumps (.obj (load_sprite_code sprite)))⟩] ∧
      jGet (load_sprite_code sprite) "costumes" = some (.arr []) ∧
      jGet (load_sprite_code sprite) "current_costume" = some (.num 0) ∧
      payloadExcept ["costumes", "current_costume", "sounds"] (load_sprite_code sprite) =
        payloadExcept ["costumes", "current_costume", "sounds"] sprite ∧
      dumps (.obj (payloadExcept ["costumes", "current_costume", "sounds"]
          (load_sprite_code sprite))) =
        dumps (.obj (payloadExcept ["costumes", "current_costume", "sounds"] sprite)) := by
  intro sprite staging
  have hc : jGet (load_sprite_code sprite) "costumes" = some (.arr []) := by
    unfold load_sprite_code
    rw [jGet_dictSet_ne _ _ _ _ (by decide), jGet_dictSet_ne _ _ _ _ (by decide),
      jGet_dictSet_self]
  have hcc : jGet (load_sprite_code sprite) "current_costume" = some (.num 0) := by
    unfold load_sprite_code
    rw [jGet_dictSet_ne _ _ _ _ (by decide), jGet_dictSet_self]
  have hassem : assemble_sprite (load_sprite_code sprite) staging =
      ⟨some [⟨"sprite.json", .txt (dumps (.obj (load_sprite_code sprite)))⟩], none⟩ := by
    simp only [assemble_sprite, hc]
    rfl
  have hpayload :
      payloadExcept ["costumes", "current_costume", "sounds"] (load_sprite_code sprite) =
        payloadExcept ["costumes", "current_costume", "sounds"] sprite := by
    unfold load_sprite_code
    rw [payloadExcept_dictSet _ _ _ _ (by decide), payloadExcept_dictSet _ _ _ _ (by decide),
      payloadExcept_dictSet _ _ _ _ (by decide)]
  exact ⟨by rw [hassem], by rw [hassem], hc, hcc, hpayload, by rw [hpayload]⟩
